import Mathlib

/-!
Verification of the AgentID dual-purpose identifier codec from
packages/coretypes/agentid.go.

An AgentID is a fixed-length byte array holding either a ledger address
(handle field all zero) or a contract locator (chain id plus nonzero hname).
We embed bytes as `Fin 256`, byte arrays as length-indexed lists, Go errors
as `Except String`, and panics as `Option` results (`none` = panic).

The external collaborators (the ledgerstate address codec, the contract
locator text codec, the base-58 library) are not part of the source tree;
they are modelled from the spec, which treats them as opaque fixed-length
byte sequences with encode/decode/to-text operations, the text form being
standard base-58 of the raw bytes.
-/

abbrev Byte := Fin 256

def natToByte (d : Nat) : Byte := ⟨d % 256, Nat.mod_lt _ (by omega)⟩

/-! ## Base-conversion infrastructure (big-endian digits)

`beDigits b n` is the list of base-`b` digits of `n`, most significant first,
with no leading zeros (`[]` for 0). Fuel-based structural recursion keeps the
definition kernel-reducible.
-/

def beDigitsAux (b : Nat) : Nat → Nat → List Nat
  | _, 0 => []
  | 0, _ + 1 => []
  | fuel + 1, n + 1 => beDigitsAux b fuel ((n + 1) / b) ++ [(n + 1) % b]

def beDigits (b n : Nat) : List Nat := beDigitsAux b n n

def ofBeDigits (b : Nat) (l : List Nat) : Nat := l.foldl (fun acc d => acc * b + d) 0

/-! ## Base-58 text codec

Modelled from the spec: the base-58 library (mr-tron/base58) is an external
collaborator. Standard base-58: the byte buffer is read as a big-endian
big integer whose base-58 digits are mapped through the bitcoin alphabet,
with each leading zero byte rendered as a leading one-character.
-/

def b58Alphabet : List Char :=
  ['1', '2', '3', '4', '5', '6', '7', '8', '9',
   'A', 'B', 'C', 'D', 'E', 'F', 'G', 'H', 'J', 'K', 'L', 'M', 'N',
   'P', 'Q', 'R', 'S', 'T', 'U', 'V', 'W', 'X', 'Y', 'Z',
   'a', 'b', 'c', 'd', 'e', 'f', 'g', 'h', 'i', 'j', 'k', 'm', 'n',
   'o', 'p', 'q', 'r', 's', 't', 'u', 'v', 'w', 'x', 'y', 'z']

def digitToChar (d : Nat) : Char := b58Alphabet.getD d '?'

def charIndexAux (c : Char) : List Char → Nat → Option Nat
  | [], _ => none
  | a :: rest, i => if a = c then some i else charIndexAux c rest (i + 1)

def charToDigit (c : Char) : Option Nat := charIndexAux c b58Alphabet 0

def base58Encode (l : List Byte) : List Char :=
  List.replicate ((l.takeWhile (fun x => x == (0 : Byte))).length) '1'
    ++ (beDigits 58 (ofBeDigits 256 (l.map Fin.val))).map digitToChar

def base58Decode (s : List Char) : Option (List Byte) :=
  if s.all (fun c => (charToDigit c).isSome) then
    some (List.replicate ((s.takeWhile (fun c => c == '1')).length) (0 : Byte)
      ++ (beDigits 256 (ofBeDigits 58 (s.filterMap charToDigit))).map natToByte)
  else none

/-! ## Data model

Lengths as in the source: AgentIDLength = ContractIDLength (the maximum of
ContractIDLength and the ledgerstate address length), ContractID = chain id
plus hname field. The numeric values are modelled from the spec: the
ledgerstate address is 33 bytes and the hname (handle) field is 4 bytes,
matching the 4-byte zero array the source compares the handle field against.
-/

def AddressLength : Nat := 33

def ChainIDLength : Nat := AddressLength

def HnameLength : Nat := 4

def ContractIDLength : Nat := ChainIDLength + HnameLength

/-- AgentIDLength is the size of AgentID in bytes. -/
def AgentIDLength : Nat := ContractIDLength

/-- Modelled from the spec: the ledgerstate address, an opaque fixed-length
byte sequence (the address type and its codec are external collaborators). -/
structure Address where
  data : List Byte
  len : data.length = AddressLength

/-- Modelled from the spec: the chain identifier, a fixed-length byte
sequence (declared outside src). -/
structure ChainID where
  data : List Byte
  len : data.length = ChainIDLength

/-- Modelled from the spec: the contract locator, a fixed-length byte
sequence of chain field plus handle field (declared outside src). -/
structure ContractID where
  data : List Byte
  len : data.length = ContractIDLength

/-- AgentID represents exactly one of two types of entities in one ID:
an address on the Tangle, or a smart contract. -/
structure AgentID where
  data : List Byte
  len : data.length = AgentIDLength

instance : DecidableEq Address := fun a b =>
  decidable_of_iff (a.data = b.data)
    ⟨fun h => by cases a; cases b; simp only at h; subst h; rfl, fun h => by rw [h]⟩

instance : DecidableEq ContractID := fun a b =>
  decidable_of_iff (a.data = b.data)
    ⟨fun h => by cases a; cases b; simp only at h; subst h; rfl, fun h => by rw [h]⟩

instance : DecidableEq AgentID := fun a b =>
  decidable_of_iff (a.data = b.data)
    ⟨fun h => by cases a; cases b; simp only at h; subst h; rfl, fun h => by rw [h]⟩

/-! ## External collaborator operations (modelled from the spec) -/

/-- Modelled from the spec: ErrWrongDataLength, the InvalidLength error class
(declared outside src). -/
def ErrWrongDataLength : String := "wrong data length"

/-- Modelled from the spec: the hname handle is a 32-bit value serialized into
the HnameLength-byte handle field; the reserved sentinel 0 serializes to the
all-zero field. -/
def hnameBytes (h : Nat) : List Byte :=
  [natToByte h, natToByte (h / 256), natToByte (h / 256 ^ 2), natToByte (h / 256 ^ 3)]

/-- Modelled from the spec: NewContractID (declared outside src) joins the
chain id bytes and the serialized handle into the fixed-length locator. -/
def NewContractID (chid : ChainID) (hname : Nat) : ContractID :=
  ⟨chid.data ++ hnameBytes hname, by rw [List.length_append, chid.len]; rfl⟩

/-- Modelled from the spec: Address.Array yields the raw fixed-length bytes
of the opaque address. -/
def Address.Array (a : Address) : List Byte := a.data

/-- Modelled from the spec: decoding an address from a raw fixed-length
buffer (opaque external codec; fails on a wrong-length buffer). -/
def AddressFromBytes (data : List Byte) : Except String Address :=
  if h : data.length = AddressLength then Except.ok ⟨data, h⟩
  else Except.error ("invalid address bytes")

/-- Modelled from the spec: the address type has its own canonical text
encoding, base-58 of its raw bytes. -/
def Address.String (a : Address) : List Char := base58Encode a.data

/-- Modelled from the spec: parsing an address from its base-58 text. -/
def AddressFromBase58EncodedString (s : List Char) : Except String Address :=
  match base58Decode s with
  | none => Except.error ("invalid base58 string")
  | some bs => AddressFromBytes bs

/-- Modelled from the spec: the contract locator has its own canonical text
encoding with encode/decode as exact inverses; base-58 of its raw bytes. -/
def ContractID.String (cid : ContractID) : List Char := base58Encode cid.data

/-- Modelled from the spec: NewContractIDFromString (declared outside src),
the inverse of the locator text encoding. -/
def NewContractIDFromString (s : List Char) : Except String ContractID :=
  match base58Decode s with
  | none => Except.error ("invalid base58 string")
  | some bs =>
    if h : bs.length = ContractIDLength then Except.ok ⟨bs, h⟩
    else Except.error (ErrWrongDataLength)

/-! ## The AgentID operations (translated from the source) -/

/-- NewAgentIDFromContractID makes AgentID from ContractID: verbatim copy of
the fixed-length buffer. -/
def NewAgentIDFromContractID (id : ContractID) : AgentID := ⟨id.data, id.len⟩

/-- NewAgentIDFromAddress makes AgentID from an address: the address bytes
become the chain field and the reserved hname 0 the handle field. -/
def NewAgentIDFromAddress (addr : Address) : AgentID :=
  NewAgentIDFromContractID (NewContractID ⟨addr.Array, addr.len⟩ 0)

/-- NewAgentIDFromBytes makes an AgentID from binary representation. -/
def NewAgentIDFromBytes (data : List Byte) : Except String AgentID :=
  if h : data.length = AgentIDLength then Except.ok ⟨data, h⟩
  else Except.error (ErrWrongDataLength)

def AgentID.chainIDField (a : AgentID) : List Byte := a.data.take ChainIDLength

def AgentID.hnameField (a : AgentID) : List Byte :=
  (a.data.drop ChainIDLength).take HnameLength

/-- IsAddress checks if the agentID represents an address: 0 in the place of
the hname means it is an address. -/
def AgentID.IsAddress (a : AgentID) : Bool :=
  a.hnameField == List.replicate 4 (0 : Byte)

/-- MustAddress takes the address or panics if not an address
(`none` models the panic). -/
def AgentID.MustAddress (a : AgentID) : Option Address :=
  if a.IsAddress then
    match AddressFromBytes a.chainIDField with
    | Except.ok addr => some addr
    | Except.error _ => none
  else none

/-- MustContractID takes the contract ID or panics if not a contract ID
(`none` models the panic). -/
def AgentID.MustContractID (a : AgentID) : Option ContractID :=
  if a.IsAddress then none else some ⟨a.data, a.len⟩

/-- String: the human readable string, variant prefixed; `none` models the
panic a failing MustAddress/MustContractID would raise. -/
def AgentID.String (a : AgentID) : Option (List Char) :=
  if a.IsAddress then
    a.MustAddress.map (fun addr => 'A' :: '/' :: addr.String)
  else
    a.MustContractID.map (fun cid => 'C' :: '/' :: cid.String)

/-- NewAgentIDFromString parses the human-readable string representation. -/
def NewAgentIDFromString (s : List Char) : Except String AgentID :=
  if s.length < 2 then Except.error ("invalid length")
  else if s.take 2 = ['A', '/'] then
    Except.map NewAgentIDFromAddress (AddressFromBase58EncodedString (s.drop 2))
  else if s.take 2 = ['C', '/'] then
    Except.map NewAgentIDFromContractID (NewContractIDFromString (s.drop 2))
  else Except.error ("invalid prefix")

/-- Modelled from the spec: a single io.Reader Read call on a pure byte
stream delivers up to the requested count of bytes from the stream front,
reporting how many were delivered. -/
def readerDeliver (stream : List Byte) (bufLen : Nat) : Nat × List Byte :=
  (min bufLen stream.length, stream.take bufLen)

/-- ReadAgentID decodes from binary representation: one Read with an
AgentIDLength-sized buffer; an error when fewer bytes are delivered. -/
def ReadAgentID (stream : List Byte) : Except String AgentID :=
  if h : (readerDeliver stream AgentIDLength).1 = AgentIDLength then
    Except.ok ⟨(readerDeliver stream AgentIDLength).2, by
      simpa [readerDeliver, List.length_take] using h⟩
  else Except.error ("error while reading agent ID")

/-- Base58: base-58 encoding of the raw buffer, with no variant markup. -/
def AgentID.Base58 (a : AgentID) : List Char := base58Encode a.data

/-! ## Sample values -/

def zeroChainID : ChainID := ⟨List.replicate ChainIDLength (0 : Byte), by rw [List.length_replicate]⟩

def zeroAgentID : AgentID := ⟨List.replicate AgentIDLength (0 : Byte), by rw [List.length_replicate]⟩

def sampleContractID : ContractID := NewContractID zeroChainID 7

def sampleContractAgentID : AgentID := NewAgentIDFromContractID sampleContractID

instance {ε α : Type} [DecidableEq ε] [DecidableEq α] : DecidableEq (Except ε α) := fun x y =>
  match x, y with
  | Except.error e, Except.error f =>
    if h : e = f then isTrue (by rw [h]) else isFalse (fun hc => h (Except.error.inj hc))
  | Except.error _, Except.ok _ => isFalse (fun hc => Except.noConfusion hc)
  | Except.ok _, Except.error _ => isFalse (fun hc => Except.noConfusion hc)
  | Except.ok a, Except.ok b =>
    if h : a = b then isTrue (by rw [h]) else isFalse (fun hc => h (Except.ok.inj hc))

/-! ## Lemmas about the base-conversion and base-58 layers -/

theorem beDigitsAux_zero (b fuel : Nat) : beDigitsAux b fuel 0 = [] := by
  cases fuel <;> rfl

theorem beDigitsAux_succ (b fuel n : Nat) :
    beDigitsAux b (fuel + 1) (n + 1) = beDigitsAux b fuel ((n + 1) / b) ++ [(n + 1) % b] := rfl

theorem beDigitsAux_congr (b : Nat) (hb : 2 ≤ b) :
    ∀ n fuel fuel', n ≤ fuel → n ≤ fuel' → beDigitsAux b fuel n = beDigitsAux b fuel' n := by
  intro n
  induction n using Nat.strong_induction_on with
  | _ n ih =>
    match n with
    | 0 => intro fuel fuel' _ _; rw [beDigitsAux_zero, beDigitsAux_zero]
    | m + 1 =>
      intro fuel fuel' h h'
      obtain ⟨f, rfl⟩ : ∃ f, fuel = f + 1 := ⟨fuel - 1, by omega⟩
      obtain ⟨f', rfl⟩ : ∃ f', fuel' = f' + 1 := ⟨fuel' - 1, by omega⟩
      rw [beDigitsAux_succ, beDigitsAux_succ]
      have hdiv : (m + 1) / b < m + 1 := Nat.div_lt_self (by omega) (by omega)
      rw [ih ((m + 1) / b) hdiv f f' (by omega) (by omega)]

theorem beDigits_zero (b : Nat) : beDigits b 0 = [] := beDigitsAux_zero b 0

theorem beDigits_eq (b : Nat) (hb : 2 ≤ b) (n : Nat) (hn : n ≠ 0) :
    beDigits b n = beDigits b (n / b) ++ [n % b] := by
  obtain ⟨m, rfl⟩ : ∃ m, n = m + 1 := ⟨n - 1, by omega⟩
  have hdiv : (m + 1) / b < m + 1 := Nat.div_lt_self (by omega) (by omega)
  unfold beDigits
  rw [beDigitsAux_succ,
      beDigitsAux_congr b hb ((m + 1) / b) m ((m + 1) / b) (by omega) (by omega)]

theorem ofBeDigits_nil (b : Nat) : ofBeDigits b [] = 0 := rfl

theorem ofBeDigits_append_singleton (b : Nat) (l : List Nat) (d : Nat) :
    ofBeDigits b (l ++ [d]) = ofBeDigits b l * b + d := by
  unfold ofBeDigits
  rw [List.foldl_append]
  rfl

theorem ofBeDigits_beDigits (b : Nat) (hb : 2 ≤ b) (n : Nat) :
    ofBeDigits b (beDigits b n) = n := by
  induction n using Nat.strong_induction_on with
  | _ n ih =>
    by_cases hn : n = 0
    · subst hn; rw [beDigits_zero]; rfl
    · rw [beDigits_eq b hb n hn, ofBeDigits_append_singleton,
          ih (n / b) (Nat.div_lt_self (by omega) (by omega))]
      exact Nat.div_add_mod' n b

theorem beDigits_lt (b : Nat) (hb : 2 ≤ b) (n : Nat) :
    ∀ d ∈ beDigits b n, d < b := by
  induction n using Nat.strong_induction_on with
  | _ n ih =>
    by_cases hn : n = 0
    · subst hn; rw [beDigits_zero]; intro d hd; cases hd
    · rw [beDigits_eq b hb n hn]
      intro d hd
      rcases List.mem_append.mp hd with h | h
      · exact ih (n / b) (Nat.div_lt_self (by omega) (by omega)) d h
      · rcases List.mem_singleton.mp h with rfl
        exact Nat.mod_lt _ (by omega)

theorem beDigits_head_ne_zero (b : Nat) (hb : 2 ≤ b) (n : Nat) (hn : n ≠ 0) :
    (beDigits b n).head? ≠ some 0 := by
  induction n using Nat.strong_induction_on with
  | _ n ih =>
    rw [beDigits_eq b hb n hn]
    by_cases hq : n / b = 0
    · rw [hq, beDigits_zero, List.nil_append, List.head?_cons]
      have hlt : n < b := by
        by_contra hge
        have : 0 < n / b := Nat.div_pos (by omega) (by omega)
        omega
      rw [Nat.mod_eq_of_lt hlt]
      simpa using hn
    · have hne : beDigits b (n / b) ≠ [] := by
        rw [beDigits_eq b hb (n / b) hq]
        simp
      obtain ⟨h0, t, ht⟩ := List.exists_cons_of_ne_nil hne
      have := ih (n / b) (Nat.div_lt_self (by omega) (by omega)) hq
      rw [ht] at this ⊢
      rw [List.cons_append, List.head?_cons]
      simpa using this

theorem ofBeDigits_shift (b : Nat) (l : List Nat) (a : Nat) :
    l.foldl (fun acc d => acc * b + d) a = a * b ^ l.length + ofBeDigits b l := by
  induction l generalizing a with
  | nil => simp [ofBeDigits]
  | cons h t iht =>
    rw [List.foldl_cons]
    unfold ofBeDigits
    rw [List.foldl_cons, iht (a * b + h), iht (0 * b + h)]
    ring_nf
    rw [List.length_cons, pow_succ]
    ring

theorem ofBeDigits_cons (b : Nat) (h : Nat) (t : List Nat) :
    ofBeDigits b (h :: t) = h * b ^ t.length + ofBeDigits b t := by
  unfold ofBeDigits
  rw [List.foldl_cons]
  have := ofBeDigits_shift b t (0 * b + h)
  simpa [ofBeDigits] using this

theorem ofBeDigits_pos (b : Nat) (hb : 1 ≤ b) (h : Nat) (t : List Nat) (hh : h ≠ 0) :
    0 < ofBeDigits b (h :: t) := by
  rw [ofBeDigits_cons]
  have : 0 < b ^ t.length := Nat.pos_pow_of_pos _ (by omega)
  have : 1 * 1 ≤ h * b ^ t.length := Nat.mul_le_mul (by omega) (by omega)
  omega

theorem beDigits_ofBeDigits (b : Nat) (hb : 2 ≤ b) :
    ∀ l : List Nat, (∀ d ∈ l, d < b) → l.head? ≠ some 0 →
      beDigits b (ofBeDigits b l) = l := by
  intro l
  induction l using List.reverseRecOn with
  | nil => intro _ _; rw [ofBeDigits_nil, beDigits_zero]
  | append_singleton l' d ihl =>
    intro hlt hhead
    rw [ofBeDigits_append_singleton]
    have hd : d < b := hlt d (by simp)
    match l', hhead with
    | [], hhead =>
      have hd0 : d ≠ 0 := by simpa using hhead
      rw [ofBeDigits_nil, beDigits_eq b hb (0 * b + d) (by omega)]
      have h1 : (0 * b + d) / b = 0 := by
        rw [Nat.zero_mul, Nat.zero_add]; exact Nat.div_eq_of_lt hd
      have h2 : (0 * b + d) % b = d := by
        rw [Nat.zero_mul, Nat.zero_add]; exact Nat.mod_eq_of_lt hd
      rw [h1, h2, beDigits_zero, List.nil_append]
    | h0 :: t, hhead =>
      have hh0 : h0 ≠ 0 := by simpa using hhead
      have hm : 0 < ofBeDigits b (h0 :: t) := ofBeDigits_pos b (by omega) h0 t hh0
      have hn0 : ofBeDigits b (h0 :: t) * b + d ≠ 0 := by
        have : 0 < ofBeDigits b (h0 :: t) * b := Nat.mul_pos hm (by omega)
        omega
      rw [beDigits_eq b hb _ hn0]
      have h1 : (ofBeDigits b (h0 :: t) * b + d) / b = ofBeDigits b (h0 :: t) := by
        rw [Nat.mul_comm, Nat.mul_add_div (by omega), Nat.div_eq_of_lt hd, Nat.add_zero]
      have h2 : (ofBeDigits b (h0 :: t) * b + d) % b = d := by
        rw [Nat.mul_comm, Nat.mul_add_mod, Nat.mod_eq_of_lt hd]
      have harg : ∀ x ∈ h0 :: t, x < b := by
        intro x hx
        rcases List.mem_cons.mp hx with rfl | hx'
        · exact hlt x (List.mem_cons_self _ _)
        · exact hlt x (List.mem_cons_of_mem _ (List.mem_append_left _ hx'))
      rw [h1, h2, ihl harg (by simpa using hh0)]

theorem charToDigit_one : charToDigit '1' = some 0 := by decide

theorem charToDigit_digitToChar : ∀ d, d < 58 → charToDigit (digitToChar d) = some d := by
  decide

theorem digitToChar_ne_one : ∀ d, d < 58 → d ≠ 0 → digitToChar d ≠ '1' := by
  decide

theorem takeWhile_replicate_of_pos {α : Type} (p : α → Bool) (a : α) (h : p a = true) (k : Nat) :
    (List.replicate k a).takeWhile p = List.replicate k a := by
  induction k with
  | zero => rfl
  | succ k ih => rw [List.replicate_succ, List.takeWhile_cons_of_pos h, ih]

theorem takeWhile_replicate_append_of_neg {α : Type} (p : α → Bool) (a c : α) (t : List α)
    (ha : p a = true) (hc : p c = false) (k : Nat) :
    (List.replicate k a ++ c :: t).takeWhile p = List.replicate k a := by
  induction k with
  | zero =>
    rw [List.replicate, List.nil_append, List.takeWhile_cons_of_neg (by simp [hc])]
  | succ k ih =>
    rw [List.replicate_succ, List.cons_append, List.takeWhile_cons_of_pos ha, ih]

theorem filterMap_replicate_of_some {α β : Type} (f : α → Option β) (a : α) (x : β)
    (h : f a = some x) (k : Nat) :
    (List.replicate k a).filterMap f = List.replicate k x := by
  induction k with
  | zero => rfl
  | succ k ih => rw [List.replicate_succ, List.filterMap_cons_some h, ih, List.replicate_succ]

theorem filterMap_map_of_some {α β : Type} (f : α → β) (g : β → Option α) (l : List α)
    (h : ∀ d ∈ l, g (f d) = some d) :
    (l.map f).filterMap g = l := by
  induction l with
  | nil => rfl
  | cons d t ih =>
    rw [List.map_cons, List.filterMap_cons_some (h d (List.mem_cons_self _ _)),
        ih (fun x hx => h x (List.mem_cons_of_mem _ hx))]

theorem ofBeDigits_replicate_zero (b : Nat) (k : Nat) (l : List Nat) :
    ofBeDigits b (List.replicate k 0 ++ l) = ofBeDigits b l := by
  induction k with
  | zero => rw [List.replicate, List.nil_append]
  | succ k ih =>
    rw [List.replicate_succ, List.cons_append]
    unfold ofBeDigits at ih ⊢
    rw [List.foldl_cons]
    simpa using ih

theorem dropWhile_head_not {α : Type} (p : α → Bool) :
    ∀ l : List α, ∀ a, (l.dropWhile p).head? = some a → p a = false := by
  intro l
  induction l with
  | nil => intro a h; cases h
  | cons x t ih =>
    intro a h
    by_cases hx : p x
    · rw [List.dropWhile_cons_of_pos hx] at h
      exact ih a h
    · rw [List.dropWhile_cons_of_neg hx, List.head?_cons, Option.some_inj] at h
      subst h
      simpa using hx

theorem eq_replicate_zero_of_mem {α : Type} [DecidableEq α] (z : α) :
    ∀ l : List α, (∀ x ∈ l, x = z) → l = List.replicate l.length z := by
  intro l
  induction l with
  | nil => intro _; rfl
  | cons x t ih =>
    intro h
    rw [List.length_cons, List.replicate_succ, h x (List.mem_cons_self _ _),
        ← ih (fun y hy => h y (List.mem_cons_of_mem _ hy))]

theorem natToByte_val (x : Byte) : natToByte x.val = x := by
  unfold natToByte
  exact Fin.ext (Nat.mod_eq_of_lt x.isLt)

theorem map_natToByte_val (l : List Byte) : (l.map Fin.val).map natToByte = l := by
  induction l with
  | nil => rfl
  | cons x t ih => rw [List.map_cons, List.map_cons, natToByte_val, ih]

theorem base58_enc_dec_zeros (k : Nat) :
    base58Decode (base58Encode (List.replicate k (0 : Byte)))
      = some (List.replicate k (0 : Byte)) := by
  have hb0 : ((0 : Byte) == (0 : Byte)) = true := by decide
  have h1 : (List.replicate k (0 : Byte)).takeWhile (fun x => x == (0 : Byte))
      = List.replicate k (0 : Byte) :=
    takeWhile_replicate_of_pos (fun x => x == (0 : Byte)) (0 : Byte) hb0 k
  have hnum : ofBeDigits 256 ((List.replicate k (0 : Byte)).map Fin.val) = 0 := by
    rw [List.map_replicate]
    simpa using ofBeDigits_replicate_zero 256 k []
  have henc : base58Encode (List.replicate k (0 : Byte)) = List.replicate k '1' := by
    unfold base58Encode
    rw [h1, hnum, beDigits_zero, List.map_nil, List.append_nil, List.length_replicate]
  rw [henc]
  have hall : (List.replicate k '1').all (fun c => (charToDigit c).isSome) = true := by
    rw [List.all_eq_true]
    intro c hc
    rw [List.eq_of_mem_replicate hc, charToDigit_one]
    rfl
  have h11 : (('1' : Char) == '1') = true := by decide
  unfold base58Decode
  rw [if_pos hall, takeWhile_replicate_of_pos (fun c => c == '1') '1' h11 k,
      List.length_replicate, filterMap_replicate_of_some charToDigit '1' 0 charToDigit_one k]
  have hz58 : ofBeDigits 58 (List.replicate k 0) = 0 := by
    simpa using ofBeDigits_replicate_zero 58 k []
  rw [hz58, beDigits_zero, List.map_nil, List.append_nil]

theorem base58_enc_dec_cons (k : Nat) (r0 : Byte) (rt : List Byte) (hr0 : r0 ≠ 0) :
    base58Decode (base58Encode (List.replicate k (0 : Byte) ++ r0 :: rt))
      = some (List.replicate k (0 : Byte) ++ r0 :: rt) := by
  have hb0 : ((0 : Byte) == (0 : Byte)) = true := by decide
  have hpr0 : (r0 == (0 : Byte)) = false := beq_eq_false_iff_ne.mpr hr0
  have h0v : (0 : Byte).val = 0 := rfl
  have hval0 : r0.val ≠ 0 := fun h => hr0 (Fin.ext (h.trans h0v.symm))
  have hnpos : 0 < ofBeDigits 256 ((r0 :: rt).map Fin.val) := by
    rw [List.map_cons]
    exact ofBeDigits_pos 256 (by omega) _ _ hval0
  have hmap : (List.replicate k (0 : Byte) ++ r0 :: rt).map Fin.val
      = List.replicate k 0 ++ (r0 :: rt).map Fin.val := by
    rw [List.map_append, List.map_replicate]
    rfl
  have hnum : ofBeDigits 256 ((List.replicate k (0 : Byte) ++ r0 :: rt).map Fin.val)
      = ofBeDigits 256 ((r0 :: rt).map Fin.val) := by
    rw [hmap, ofBeDigits_replicate_zero]
  set n := ofBeDigits 256 ((r0 :: rt).map Fin.val) with hn
  have hds_ne : beDigits 58 n ≠ [] := by
    rw [beDigits_eq 58 (by omega) n (by omega)]
    simp
  obtain ⟨d0, dt, hds⟩ := List.exists_cons_of_ne_nil hds_ne
  have hdlt : ∀ d ∈ beDigits 58 n, d < 58 := beDigits_lt 58 (by omega) n
  have hd0lt : d0 < 58 := hdlt d0 (by rw [hds]; exact List.mem_cons_self _ _)
  have hd0ne : d0 ≠ 0 := by
    have := beDigits_head_ne_zero 58 (by omega) n (by omega)
    rw [hds, List.head?_cons] at this
    simpa using this
  have htake : (List.replicate k (0 : Byte) ++ r0 :: rt).takeWhile (fun x => x == (0 : Byte))
      = List.replicate k (0 : Byte) :=
    takeWhile_replicate_append_of_neg (fun x => x == (0 : Byte)) (0 : Byte) r0 rt hb0 hpr0 k
  have henc : base58Encode (List.replicate k (0 : Byte) ++ r0 :: rt)
      = List.replicate k '1' ++ (beDigits 58 n).map digitToChar := by
    unfold base58Encode
    rw [htake, List.length_replicate, hnum]
  rw [henc]
  have hall : (List.replicate k '1' ++ (beDigits 58 n).map digitToChar).all
      (fun c => (charToDigit c).isSome) = true := by
    rw [List.all_append, Bool.and_eq_true]
    constructor
    · rw [List.all_eq_true]
      intro c hc
      rw [List.eq_of_mem_replicate hc, charToDigit_one]
      rfl
    · rw [List.all_eq_true]
      intro c hc
      obtain ⟨d, hdm, rfl⟩ := List.mem_map.mp hc
      rw [charToDigit_digitToChar d (hdlt d hdm)]
      rfl
  have h11 : (('1' : Char) == '1') = true := by decide
  have hone : (digitToChar d0 == '1') = false :=
    beq_eq_false_iff_ne.mpr (digitToChar_ne_one d0 hd0lt hd0ne)
  have htake2 : (List.replicate k '1' ++ (beDigits 58 n).map digitToChar).takeWhile
      (fun c => c == '1') = List.replicate k '1' := by
    rw [hds, List.map_cons]
    exact takeWhile_replicate_append_of_neg (fun c => c == '1') '1' (digitToChar d0)
      (dt.map digitToChar) h11 hone k
  have hfm : (List.replicate k '1' ++ (beDigits 58 n).map digitToChar).filterMap charToDigit
      = List.replicate k 0 ++ beDigits 58 n := by
    rw [List.filterMap_append, filterMap_replicate_of_some charToDigit '1' 0 charToDigit_one k,
        filterMap_map_of_some digitToChar charToDigit _
          (fun d hdm => charToDigit_digitToChar d (hdlt d hdm))]
  unfold base58Decode
  rw [if_pos hall, htake2, List.length_replicate, hfm, ofBeDigits_replicate_zero,
      ofBeDigits_beDigits 58 (by omega) n]
  have hback : beDigits 256 n = (r0 :: rt).map Fin.val := by
    rw [hn]
    apply beDigits_ofBeDigits 256 (by omega)
    · intro d hdm
      obtain ⟨x, _, rfl⟩ := List.mem_map.mp hdm
      exact x.isLt
    · rw [List.map_cons, List.head?_cons]
      simpa using hval0
  rw [hback, map_natToByte_val]

theorem base58_roundtrip (l : List Byte) : base58Decode (base58Encode l) = some l := by
  have hsplit : l.takeWhile (fun x => x == (0 : Byte))
      ++ l.dropWhile (fun x => x == (0 : Byte)) = l :=
    List.takeWhile_append_dropWhile (fun x => x == (0 : Byte)) l
  have hzrep : l.takeWhile (fun x => x == (0 : Byte))
      = List.replicate (l.takeWhile (fun x => x == (0 : Byte))).length (0 : Byte) :=
    eq_replicate_zero_of_mem _ _
      (fun x hx => eq_of_beq (List.mem_takeWhile_imp (p := fun y => y == (0 : Byte)) hx))
  rcases hd : l.dropWhile (fun x => x == (0 : Byte)) with _ | ⟨r0, rt⟩
  · have hl : l = List.replicate (l.takeWhile (fun x => x == (0 : Byte))).length (0 : Byte) := by
      conv_lhs => rw [← hsplit, hd]
      rw [List.append_nil]
      exact hzrep
    rw [hl]
    exact base58_enc_dec_zeros _
  · have hr0 : r0 ≠ 0 :=
      ne_of_beq_false (dropWhile_head_not (fun x : Byte => x == (0 : Byte)) l r0 (by rw [hd]; rfl))
    have hl : l = List.replicate (l.takeWhile (fun x => x == (0 : Byte))).length (0 : Byte)
        ++ r0 :: rt := by
      conv_lhs => rw [← hsplit, hd]
      rw [← hzrep]
    rw [hl]
    exact base58_enc_dec_cons _ r0 rt hr0

theorem address_eq_of_data : ∀ a b : Address, a.data = b.data → a = b := by
  intro ⟨d1, h1⟩ ⟨d2, h2⟩ h
  simp only at h
  subst h
  rfl

theorem contractID_eq_of_data : ∀ a b : ContractID, a.data = b.data → a = b := by
  intro ⟨d1, h1⟩ ⟨d2, h2⟩ h
  simp only at h
  subst h
  rfl

theorem agentID_eq_of_data : ∀ a b : AgentID, a.data = b.data → a = b := by
  intro ⟨d1, h1⟩ ⟨d2, h2⟩ h
  simp only at h
  subst h
  rfl

/-! ## Field and constructor lemmas -/

theorem AgentID.chainIDField_length (a : AgentID) : a.chainIDField.length = ChainIDLength := by
  unfold AgentID.chainIDField
  rw [List.length_take, a.len]
  decide

theorem AgentID.hnameField_eq_drop (a : AgentID) : a.hnameField = a.data.drop ChainIDLength := by
  unfold AgentID.hnameField
  apply List.take_of_length_le
  rw [List.length_drop, a.len]
  decide

theorem AgentID.data_decomp (a : AgentID) : a.data = a.chainIDField ++ a.hnameField := by
  rw [AgentID.hnameField_eq_drop]
  unfold AgentID.chainIDField
  exact (List.take_append_drop _ _).symm

theorem AgentID.isAddress_iff (a : AgentID) :
    a.IsAddress = true ↔ a.hnameField = List.replicate 4 (0 : Byte) := by
  unfold AgentID.IsAddress
  exact beq_iff_eq

theorem hnameBytes_zero : hnameBytes 0 = List.replicate 4 (0 : Byte) := by decide

theorem NewAgentIDFromContractID_data (cid : ContractID) :
    (NewAgentIDFromContractID cid).data = cid.data := rfl

theorem NewAgentIDFromAddress_data (addr : Address) :
    (NewAgentIDFromAddress addr).data = addr.data ++ List.replicate 4 (0 : Byte) := by
  rw [← hnameBytes_zero]
  rfl

theorem chainIDLength_eq_data_length (addr : Address) : ChainIDLength = addr.data.length := by
  rw [addr.len]
  rfl

theorem NewAgentIDFromAddress_chainIDField (addr : Address) :
    (NewAgentIDFromAddress addr).chainIDField = addr.data := by
  unfold AgentID.chainIDField
  rw [NewAgentIDFromAddress_data, chainIDLength_eq_data_length addr, List.take_left]

theorem NewAgentIDFromAddress_hnameField (addr : Address) :
    (NewAgentIDFromAddress addr).hnameField = List.replicate 4 (0 : Byte) := by
  rw [AgentID.hnameField_eq_drop, NewAgentIDFromAddress_data,
      chainIDLength_eq_data_length addr, List.drop_left]

theorem NewAgentIDFromAddress_isAddress (addr : Address) :
    (NewAgentIDFromAddress addr).IsAddress = true :=
  (AgentID.isAddress_iff _).mpr (NewAgentIDFromAddress_hnameField addr)

theorem AddressFromBytes_of_length (bs : List Byte) (h : bs.length = AddressLength) :
    AddressFromBytes bs = Except.ok ⟨bs, h⟩ := by
  unfold AddressFromBytes
  rw [dif_pos h]

theorem AgentID.mustAddress_of_isAddress (a : AgentID) (h : a.IsAddress = true) :
    a.MustAddress = some ⟨a.chainIDField, a.chainIDField_length⟩ := by
  unfold AgentID.MustAddress
  rw [if_pos h, AddressFromBytes_of_length a.chainIDField a.chainIDField_length]

theorem NewAgentIDFromAddress_mustAddress (addr : Address) :
    (NewAgentIDFromAddress addr).MustAddress = some addr := by
  rw [AgentID.mustAddress_of_isAddress _ (NewAgentIDFromAddress_isAddress addr)]
  exact congrArg _ (address_eq_of_data _ _ (NewAgentIDFromAddress_chainIDField addr))

theorem AgentID.mustAddress_none_of_not (a : AgentID) (h : a.IsAddress = false) :
    a.MustAddress = none := by
  simp [AgentID.MustAddress, h]

theorem AgentID.mustContractID_of_not (a : AgentID) (h : a.IsAddress = false) :
    a.MustContractID = some ⟨a.data, a.len⟩ := by
  simp [AgentID.MustContractID, h]

theorem AgentID.mustContractID_none_of (a : AgentID) (h : a.IsAddress = true) :
    a.MustContractID = none := by
  simp [AgentID.MustContractID, h]

theorem AgentID.string_of_isAddress (a : AgentID) (h : a.IsAddress = true) :
    a.String = some ('A' :: '/' :: base58Encode a.chainIDField) := by
  unfold AgentID.String
  rw [if_pos h, AgentID.mustAddress_of_isAddress a h]
  rfl

theorem AgentID.string_of_not_isAddress (a : AgentID) (h : a.IsAddress = false) :
    a.String = some ('C' :: '/' :: base58Encode a.data) := by
  unfold AgentID.String
  rw [if_neg (by simp [h]), AgentID.mustContractID_of_not a h]
  rfl

theorem AddressFromBase58_of_encode (bs : List Byte) (h : bs.length = AddressLength) :
    AddressFromBase58EncodedString (base58Encode bs) = Except.ok ⟨bs, h⟩ := by
  unfold AddressFromBase58EncodedString
  rw [base58_roundtrip]
  exact AddressFromBytes_of_length bs h

theorem NewContractIDFromString_of_encode (bs : List Byte) (h : bs.length = ContractIDLength) :
    NewContractIDFromString (base58Encode bs) = Except.ok ⟨bs, h⟩ := by
  unfold NewContractIDFromString
  rw [base58_roundtrip]
  exact dif_pos h

theorem newAgentIDFromString_short (s : List Char) (h : s.length < 2) :
    NewAgentIDFromString s = Except.error ("invalid length") := by
  unfold NewAgentIDFromString
  rw [if_pos h]

theorem newAgentIDFromString_A (rest : List Char) :
    NewAgentIDFromString ('A' :: '/' :: rest)
      = Except.map NewAgentIDFromAddress (AddressFromBase58EncodedString rest) := by
  unfold NewAgentIDFromString
  rw [show ('A' :: '/' :: rest).take 2 = ['A', '/'] from rfl]
  rw [if_neg (by simp), if_pos rfl]
  rfl

theorem newAgentIDFromString_C (rest : List Char) :
    NewAgentIDFromString ('C' :: '/' :: rest)
      = Except.map NewAgentIDFromContractID (NewContractIDFromString rest) := by
  unfold NewAgentIDFromString
  rw [show ('C' :: '/' :: rest).take 2 = ['C', '/'] from rfl]
  rw [if_neg (by simp), if_neg (by decide), if_pos rfl]
  rfl

theorem newAgentIDFromString_other (s : List Char) (h2 : ¬ s.length < 2)
    (hA : s.take 2 ≠ ['A', '/']) (hC : s.take 2 ≠ ['C', '/']) :
    NewAgentIDFromString s = Except.error ("invalid prefix") := by
  unfold NewAgentIDFromString
  rw [if_neg h2, if_neg hA, if_neg hC]


theorem except_map_ok {e a b : Type} (f : a → b) (x : a) :
    Except.map f (Except.ok x : Except e a) = Except.ok (f x) := rfl

theorem except_map_error {e a b : Type} (f : a → b) (m : e) :
    Except.map f (Except.error m : Except e a) = Except.error m := rfl

/-! ## The claims -/

/-- Claim C1: for every identifier, parsing the canonical text form is the
exact inverse of rendering it: NewAgentIDFromString applied to the rendered
String succeeds and returns an AgentID equal to the original, for both the
A/ address variant and the C/ contract variant. -/
theorem C1_text_roundtrip (id : AgentID) (s : List Char) (h : id.String = some s) :
    NewAgentIDFromString s = Except.ok id := by
  by_cases hv : id.IsAddress = true
  · rw [AgentID.string_of_isAddress id hv] at h
    have hs := Option.some_inj.mp h
    subst hs
    rw [newAgentIDFromString_A,
        AddressFromBase58_of_encode id.chainIDField id.chainIDField_length, except_map_ok]
    apply congrArg
    apply agentID_eq_of_data
    rw [NewAgentIDFromAddress_data]
    show id.chainIDField ++ List.replicate 4 (0 : Byte) = id.data
    rw [AgentID.data_decomp id, (AgentID.isAddress_iff id).mp hv]
  · have hvf : id.IsAddress = false := by
      cases hb : id.IsAddress
      · rfl
      · exact absurd hb hv
    rw [AgentID.string_of_not_isAddress id hvf] at h
    have hs := Option.some_inj.mp h
    subst hs
    rw [newAgentIDFromString_C, NewContractIDFromString_of_encode id.data id.len,
        except_map_ok]
    apply congrArg
    exact agentID_eq_of_data _ _ rfl

/-- Claim C1 witness: the all-zero identifier is the address variant, renders
as A/ followed by 33 one-characters, and parses back to itself. -/
theorem C1_witness :
    zeroAgentID.String = some ('A' :: '/' :: List.replicate 33 '1') ∧
    NewAgentIDFromString ('A' :: '/' :: List.replicate 33 '1') = Except.ok zeroAgentID :=
  ⟨by decide, C1_text_roundtrip zeroAgentID ('A' :: '/' :: List.replicate 33 '1') (by decide)⟩

/-- Claim C2: an AgentID built from a contract locator with the sentinel
handle 0 is classified as the address variant, and in general IsAddress is
true exactly when the HnameLength bytes at offset ChainIDLength are zero. -/
theorem C2_sentinel_is_address :
    (∀ c : ChainID, (NewAgentIDFromContractID (NewContractID c 0)).IsAddress = true) ∧
    (∀ a : AgentID,
      a.IsAddress = true ↔ a.hnameField = List.replicate HnameLength (0 : Byte)) := by
  constructor
  · intro c
    apply (AgentID.isAddress_iff _).mpr
    rw [AgentID.hnameField_eq_drop]
    show (c.data ++ hnameBytes 0).drop ChainIDLength = _
    rw [show ChainIDLength = c.data.length from by rw [c.len], List.drop_left, hnameBytes_zero]
  · intro a
    exact AgentID.isAddress_iff a

/-- Claim C3: exactly one of the two variants holds for every identifier, and
the wrong accessor always fails (the modelled panic): MustAddress is none
whenever IsAddress is false, MustContractID is none whenever it is true. -/
theorem C3_variant_exclusive (a : AgentID) :
    (a.IsAddress = true ↔ ¬ a.IsAddress = false) ∧
    (a.IsAddress = false → a.MustAddress = none) ∧
    (a.IsAddress = true → a.MustContractID = none) := by
  refine ⟨?_, AgentID.mustAddress_none_of_not a, AgentID.mustContractID_none_of a⟩
  cases h : a.IsAddress <;> simp

/-- Claim C3 witness: the wrong accessor fails on a concrete identifier of
each variant. -/
theorem C3_witness :
    zeroAgentID.MustContractID = none ∧ sampleContractAgentID.MustAddress = none :=
  ⟨(C3_variant_exclusive zeroAgentID).2.2 (by decide),
   (C3_variant_exclusive sampleContractAgentID).2.1 (by decide)⟩

/-- Claim C4: for every address, NewAgentIDFromAddress never fails, the
result is the address variant, and MustAddress returns the same address. -/
theorem C4_address_embedding (addr : Address) :
    (NewAgentIDFromAddress addr).IsAddress = true ∧
    (NewAgentIDFromAddress addr).MustAddress = some addr :=
  ⟨NewAgentIDFromAddress_isAddress addr, NewAgentIDFromAddress_mustAddress addr⟩

/-- Claim C5: for every contract locator whose handle field is not the zero
sentinel, NewAgentIDFromContractID yields the contract variant and
MustContractID returns the same locator. -/
theorem C5_locator_embedding (c : ContractID)
    (h : (c.data.drop ChainIDLength).take HnameLength
      ≠ List.replicate HnameLength (0 : Byte)) :
    (NewAgentIDFromContractID c).IsAddress = false ∧
    (NewAgentIDFromContractID c).MustContractID = some c := by
  have hne : (NewAgentIDFromContractID c).IsAddress = false :=
    Bool.eq_false_iff.mpr (fun ht => h ((AgentID.isAddress_iff _).mp ht))
  refine ⟨hne, ?_⟩
  rw [AgentID.mustContractID_of_not _ hne]
  exact congrArg _ (contractID_eq_of_data _ _ rfl)

/-- Claim C5 witness: a concrete locator with handle 7 embeds as the
contract variant and round-trips through MustContractID. -/
theorem C5_witness :
    (sampleContractID.data.drop ChainIDLength).take HnameLength
      ≠ List.replicate HnameLength (0 : Byte) ∧
    ((NewAgentIDFromContractID sampleContractID).IsAddress = false ∧
     (NewAgentIDFromContractID sampleContractID).MustContractID = some sampleContractID) :=
  ⟨by decide, C5_locator_embedding sampleContractID (by decide)⟩

/-- Claim C6: NewAgentIDFromBytes copies an exactly AgentIDLength-byte buffer
verbatim (so the bytes read back unchanged) and fails with ErrWrongDataLength
on every other length. -/
theorem C6_bytes_roundtrip (b : List Byte) :
    (b.length = AgentIDLength →
      ∃ a, NewAgentIDFromBytes b = Except.ok a ∧ a.data = b) ∧
    (b.length ≠ AgentIDLength →
      NewAgentIDFromBytes b = Except.error ErrWrongDataLength) := by
  constructor
  · intro h
    refine ⟨⟨b, h⟩, ?_, rfl⟩
    unfold NewAgentIDFromBytes
    rw [dif_pos h]
  · intro h
    unfold NewAgentIDFromBytes
    rw [dif_neg h]

/-- Claim C6 witness: a 37-byte buffer round-trips; 36- and 38-byte buffers
are rejected with ErrWrongDataLength. -/
theorem C6_witness :
    (∃ a, NewAgentIDFromBytes (List.replicate 37 (0 : Byte)) = Except.ok a ∧
      a.data = List.replicate 37 (0 : Byte)) ∧
    NewAgentIDFromBytes (List.replicate 36 (0 : Byte)) = Except.error ErrWrongDataLength ∧
    NewAgentIDFromBytes (List.replicate 38 (0 : Byte)) = Except.error ErrWrongDataLength :=
  ⟨(C6_bytes_roundtrip (List.replicate 37 (0 : Byte))).1 (by decide),
   (C6_bytes_roundtrip (List.replicate 36 (0 : Byte))).2 (by decide),
   (C6_bytes_roundtrip (List.replicate 38 (0 : Byte))).2 (by decide)⟩

/-- Claim C7: NewAgentIDFromString rejects strings shorter than 2 characters
with the invalid-length error, rejects length-2-or-more strings whose first
two characters are neither A-slash nor C-slash with the invalid-prefix error,
and propagates the underlying address- or locator-parse error after a valid
two-character variant marker. -/
theorem C7_parse_rejection (s : List Char) :
    (s.length < 2 → NewAgentIDFromString s = Except.error ("invalid length")) ∧
    (¬ s.length < 2 → s.take 2 ≠ ['A', '/'] → s.take 2 ≠ ['C', '/'] →
      NewAgentIDFromString s = Except.error ("invalid prefix")) ∧
    (∀ rest e, s = 'A' :: '/' :: rest →
      AddressFromBase58EncodedString rest = Except.error e →
      NewAgentIDFromString s = Except.error e) ∧
    (∀ rest e, s = 'C' :: '/' :: rest →
      NewContractIDFromString rest = Except.error e →
      NewAgentIDFromString s = Except.error e) := by
  refine ⟨newAgentIDFromString_short s, newAgentIDFromString_other s, ?_, ?_⟩
  · intro rest e hs he
    subst hs
    rw [newAgentIDFromString_A, he, except_map_error]
  · intro rest e hs he
    subst hs
    rw [newAgentIDFromString_C, he, except_map_error]

/-- Claim C7 witness: the empty string and a one-character string fail with
the invalid-length error, an unknown marker fails with the invalid-prefix
error, and a valid A-slash marker with a malformed remainder propagates the
underlying address-parse error. -/
theorem C7_witness :
    NewAgentIDFromString [] = Except.error ("invalid length") ∧
    NewAgentIDFromString ['X'] = Except.error ("invalid length") ∧
    NewAgentIDFromString ['X', '/', 'a', 'b', 'c'] = Except.error ("invalid prefix") ∧
    NewAgentIDFromString ['A', '/', '0'] = Except.error ("invalid base58 string") :=
  ⟨(C7_parse_rejection []).1 (by decide),
   (C7_parse_rejection ['X']).1 (by decide),
   (C7_parse_rejection ['X', '/', 'a', 'b', 'c']).2.1 (by decide) (by decide) (by decide),
   (C7_parse_rejection ['A', '/', '0']).2.2.1 ['0'] ("invalid base58 string") rfl (by decide)⟩

/-- Claim C8: the rendered text is the variant-prefixed canonical form, A/
plus the address text for the address variant and C/ plus the locator text
otherwise, while Base58 is the base-58 encoding of the raw buffer independent
of variant and never fails. -/
theorem C8_render (a : AgentID) :
    (a.IsAddress = true →
      ∃ addr, a.MustAddress = some addr ∧
        a.String = some ('A' :: '/' :: addr.String)) ∧
    (a.IsAddress = false →
      ∃ cid, a.MustContractID = some cid ∧
        a.String = some ('C' :: '/' :: cid.String)) ∧
    a.Base58 = base58Encode a.data := by
  refine ⟨?_, ?_, rfl⟩
  · intro h
    exact ⟨⟨a.chainIDField, a.chainIDField_length⟩,
      AgentID.mustAddress_of_isAddress a h, AgentID.string_of_isAddress a h⟩
  · intro h
    exact ⟨⟨a.data, a.len⟩,
      AgentID.mustContractID_of_not a h, AgentID.string_of_not_isAddress a h⟩

/-- Claim C8 witness: concrete renderings for one identifier of each
variant. -/
theorem C8_witness :
    (∃ addr, zeroAgentID.MustAddress = some addr ∧
      zeroAgentID.String = some ('A' :: '/' :: addr.String)) ∧
    (∃ cid, sampleContractAgentID.MustContractID = some cid ∧
      sampleContractAgentID.String = some ('C' :: '/' :: cid.String)) :=
  ⟨(C8_render zeroAgentID).1 (by decide),
   (C8_render sampleContractAgentID).2.1 (by decide)⟩

/-- Claim C9: ReadAgentID consumes exactly AgentIDLength bytes from the
stream; a stream delivering fewer bytes yields an error and no identifier,
and on success the identifier holds exactly the first AgentIDLength bytes. -/
theorem C9_read_exact (stream : List Byte) :
    (stream.length < AgentIDLength →
      ReadAgentID stream = Except.error ("error while reading agent ID")) ∧
    (AgentIDLength ≤ stream.length →
      ∃ a, ReadAgentID stream = Except.ok a ∧
        a.data = stream.take AgentIDLength ∧
        (readerDeliver stream AgentIDLength).1 = AgentIDLength) := by
  constructor
  · intro h
    unfold ReadAgentID
    rw [dif_neg]
    show ¬ min AgentIDLength stream.length = AgentIDLength
    omega
  · intro h
    have hmin : (readerDeliver stream AgentIDLength).1 = AgentIDLength := by
      show min AgentIDLength stream.length = AgentIDLength
      omega
    unfold ReadAgentID
    rw [dif_pos hmin]
    exact ⟨_, rfl, rfl, hmin⟩

/-- Claim C9 witness: an empty stream errors; a 40-byte stream yields an
identifier holding exactly its first 37 bytes. -/
theorem C9_witness :
    ReadAgentID [] = Except.error ("error while reading agent ID") ∧
    (∃ a, ReadAgentID (List.replicate 40 (0 : Byte)) = Except.ok a ∧
      a.data = (List.replicate 40 (0 : Byte)).take AgentIDLength ∧
      (readerDeliver (List.replicate 40 (0 : Byte)) AgentIDLength).1 = AgentIDLength) :=
  ⟨(C9_read_exact []).1 (by decide),
   (C9_read_exact (List.replicate 40 (0 : Byte))).2 (by decide)⟩

/-- Claim C10: every AgentID successfully parsed from an A-slash string has
an all-zero hname field, satisfies IsAddress, and MustAddress on it does not
panic. -/
theorem C10_parse_A_is_address (rest : List Char) (a : AgentID)
    (h : NewAgentIDFromString ('A' :: '/' :: rest) = Except.ok a) :
    a.hnameField = List.replicate HnameLength (0 : Byte) ∧
    a.IsAddress = true ∧ a.MustAddress.isSome = true := by
  rw [newAgentIDFromString_A] at h
  cases he : AddressFromBase58EncodedString rest with
  | error e =>
    rw [he, except_map_error] at h
    exact Except.noConfusion h
  | ok addr =>
    rw [he, except_map_ok] at h
    have ha : NewAgentIDFromAddress addr = a := Except.ok.inj h
    subst ha
    refine ⟨NewAgentIDFromAddress_hnameField addr, NewAgentIDFromAddress_isAddress addr, ?_⟩
    rw [NewAgentIDFromAddress_mustAddress addr]
    rfl

/-- Claim C10 witness: a concrete A-slash string parses to an identifier
with zero hname field, IsAddress true and a non-panicking MustAddress. -/
theorem C10_witness :
    NewAgentIDFromString ('A' :: '/' :: List.replicate 33 '1') = Except.ok zeroAgentID ∧
    (zeroAgentID.hnameField = List.replicate HnameLength (0 : Byte) ∧
     zeroAgentID.IsAddress = true ∧ zeroAgentID.MustAddress.isSome = true) :=
  ⟨by decide, C10_parse_A_is_address (List.replicate 33 '1') zeroAgentID (by decide)⟩
